import Mathlib

/-!
Verification of the research pipeline of `src/services/research.ts`
(class `ResearchService`).

The TypeScript code is shallowly embedded: JS strings are Lean `String`s
and the JS string primitives used by the code (`toLowerCase`, `includes`,
`split`, `join`, `trim`, `startsWith`) are re-implemented structurally on
the underlying character lists so that every definition is executable and
kernel-reducible.  JS numbers are modelled as exact rationals `ℚ`.
Network calls are modelled as oracle inputs (`Except` values supplied as
arguments): a `.error` input is a thrown/rejected request, a `.ok` input
is a successful response, so the `try`/`catch` structure of the code maps
to `match` on those inputs.
-/

namespace Coworker

/-! ### JS string primitives, modelled on character lists -/

/-- JS `String.prototype.toLowerCase` (character-wise lowering). -/
def lowerStr (s : String) : String := ⟨s.data.map Char.toLower⟩

/-- Does the first list start with the second one? -/
def listStartsWith : List Char → List Char → Bool
  | _, [] => true
  | [], _ :: _ => false
  | a :: as, b :: bs => a == b && listStartsWith as bs

/-- Does the first list contain the second as a contiguous subsequence? -/
def seqContains : List Char → List Char → Bool
  | [], needle => needle.isEmpty
  | c :: rest, needle => listStartsWith (c :: rest) needle || seqContains rest needle

/-- JS `haystack.includes(needle)`. -/
def jsIncludes (haystack needle : String) : Bool :=
  seqContains haystack.data needle.data

/-- Split a character list on a single separator character, keeping empty
fields, as JS `split` with a one-character separator does. -/
def splitOnChar (sep : Char) : List Char → List (List Char)
  | [] => [[]]
  | c :: rest =>
    match splitOnChar sep rest with
    | [] => [[]]
    | w :: ws => if c == sep then [] :: w :: ws else (c :: w) :: ws

/-- JS `s.split(sep)` for a one-character separator. -/
def jsSplit (s : String) (sep : Char) : List String :=
  (splitOnChar sep s.data).map (fun l => ⟨l⟩)

/-- Interleave a separator between the words of a list. -/
def joinWith (sep : List Char) : List (List Char) → List Char
  | [] => []
  | [w] => w
  | w :: ws => w ++ sep ++ joinWith sep ws

/-- JS `list.join(sep)`. -/
def jsJoin (ls : List String) (sep : String) : String :=
  ⟨joinWith sep.data (ls.map String.data)⟩

/-- JS `s.trim()`: strip whitespace from both ends. -/
def trimStr (s : String) : String :=
  ⟨((s.data.dropWhile Char.isWhitespace).reverse.dropWhile Char.isWhitespace).reverse⟩

/-- JS `s.startsWith(pre)`. -/
def jsStartsWith (s pre : String) : Bool :=
  listStartsWith s.data pre.data

/-! ### Data model (from `src/types/index.ts`) -/

/-- The `type` field of a `Resource` (`src/types/index.ts`). -/
inductive ResourceType where
  | documentation
  | tutorial
  | repository
  | article
deriving DecidableEq, Repr

/-- `Resource` from `src/types/index.ts`; `relevance` is a JS number,
modelled as an exact rational. -/
structure Resource where
  title : String
  url : String
  type : ResourceType
  relevance : ℚ
deriving DecidableEq, Repr

/-- `CodeExample` from `src/types/index.ts`. -/
structure CodeExample where
  language : String
  code : String
  description : String
  source : String
deriving DecidableEq, Repr

/-- `ResearchQuery` from `src/types/index.ts`; the optional `constraints`
array becomes an `Option`. -/
structure ResearchQuery where
  technology : String
  purpose : String
  constraints : Option (List String)
deriving DecidableEq, Repr

/-- `ResearchResult` from `src/types/index.ts`. -/
structure ResearchResult where
  summary : String
  recommendations : List String
  codeExamples : List CodeExample
  resources : List Resource
deriving DecidableEq, Repr

/-- The fields of a repository-search item consumed by the code
(`repo.name`, `repo.full_name`, `repo.html_url`, `repo.description`,
`repo.stargazers_count`).  `description` can be `null`/`undefined`
(`none`) or a string; the empty string is falsy in JS, which the
embedding checks explicitly where the code relies on truthiness. -/
structure Repo where
  name : String
  full_name : String
  html_url : String
  description : Option String
  stargazers_count : ℚ
deriving DecidableEq, Repr

/-! ### RelevanceScorer (`calculateRelevance`, `calculateTextRelevance`) -/

/-- `ResearchService.calculateRelevance` (research.ts lines 224-241). -/
def calculateRelevance (repo : Repo) (technology : String) : ℚ :=
  let relevance : ℚ := 0
  let relevance :=
    if jsIncludes (lowerStr repo.name) (lowerStr technology) then relevance + 0.4
    else relevance
  let relevance :=
    match repo.description with
    | none => relevance
    | some d =>
      if d = "" then relevance
      else if jsIncludes (lowerStr d) (lowerStr technology) then relevance + 0.3
      else relevance
  let relevance := relevance + min (repo.stargazers_count / 10000) 0.3
  min relevance 1

/-- `ResearchService.calculateTextRelevance` (research.ts lines 243-256). -/
def calculateTextRelevance (text technology : String) : ℚ :=
  let lowerText := lowerStr text
  let lowerTech := lowerStr technology
  if jsIncludes lowerText lowerTech then 0.8
  else
    let words := jsSplit lowerTech ' '
    let matchedWords := words.filter (fun word => jsIncludes lowerText word)
    (matchedWords.length : ℚ) / (words.length : ℚ) * 0.6

/-- Spec-side clamp of a value to the interval [0,1]. -/
def clamp01 (x : ℚ) : ℚ := max 0 (min x 1)

/-- Spec-side repository relevance, written exactly as §4.1 of the spec
describes it: the sum of a 0.4 name bonus, a 0.3 description bonus and a
star bonus `min(starCount/10000, 0.3)`, clamped to [0,1]. -/
def specRepositoryRelevance (repo : Repo) (technology : String) : ℚ :=
  clamp01
    ((if jsIncludes (lowerStr repo.name) (lowerStr technology) then 0.4 else 0)
      + (if (match repo.description with
             | some d => jsIncludes (lowerStr d) (lowerStr technology)
             | none => false) then 0.3 else 0)
      + min (repo.stargazers_count / 10000) 0.3)

/-! ### Small string lemmas -/

theorem string_eq_of_data_eq {s t : String} (h : s.data = t.data) : s = t := by
  cases s; cases t; exact congrArg String.mk h

theorem data_ne_nil_of_ne_empty {s : String} (h : s ≠ "") : s.data ≠ [] := by
  intro hc
  exact h (string_eq_of_data_eq (by simpa using hc))

theorem lowerStr_data (s : String) : (lowerStr s).data = s.data.map Char.toLower := rfl

theorem lowerStr_ne_empty {s : String} (h : s ≠ "") : lowerStr s ≠ "" := by
  intro hc
  have hd : (lowerStr s).data = [] := by rw [hc]
  rw [lowerStr_data] at hd
  exact data_ne_nil_of_ne_empty h (List.map_eq_nil_iff.mp hd)

theorem jsIncludes_empty_left {needle : String} (h : needle ≠ "") :
    jsIncludes "" needle = false := by
  have : jsIncludes "" needle = needle.data.isEmpty := rfl
  rw [this]
  cases hd : needle.data with
  | nil => exact absurd hd (data_ne_nil_of_ne_empty h)
  | cons c cs => rfl

/-! ### Bounds of the relevance scorers -/

theorem clamp01_of_nonneg {x : ℚ} (hx : 0 ≤ x) : clamp01 x = min x 1 :=
  max_eq_right (le_min hx zero_le_one)

theorem calculateRelevance_le_one (repo : Repo) (technology : String) :
    calculateRelevance repo technology ≤ 1 := by
  simp only [calculateRelevance]
  exact min_le_right _ _

theorem calculateRelevance_nonneg (repo : Repo) (technology : String)
    (hstars : 0 ≤ repo.stargazers_count) :
    0 ≤ calculateRelevance repo technology := by
  have hmin : (0 : ℚ) ≤ min (repo.stargazers_count / 10000) 0.3 :=
    le_min (by positivity) (by norm_num)
  simp only [calculateRelevance]
  refine le_min ?_ zero_le_one
  split <;> split_ifs <;> linarith

theorem calculateTextRelevance_nonneg (text technology : String) :
    0 ≤ calculateTextRelevance text technology := by
  simp only [calculateTextRelevance]
  split_ifs with h
  · norm_num
  · positivity

theorem calculateTextRelevance_le_one (text technology : String) :
    calculateTextRelevance text technology ≤ 1 := by
  simp only [calculateTextRelevance]
  split_ifs with h
  · norm_num
  · set ws := jsSplit (lowerStr technology) ' ' with hws
    have hml : ((ws.filter (fun word => jsIncludes (lowerStr text) word)).length : ℚ)
        ≤ (ws.length : ℚ) := by
      exact_mod_cast List.length_filter_le _ _
    have hnn : (0 : ℚ) ≤ (ws.length : ℚ) := by positivity
    rcases eq_or_lt_of_le hnn with h0 | hpos
    · rw [← h0, div_zero]
      norm_num
    · have hdiv : ((ws.filter (fun word => jsIncludes (lowerStr text) word)).length : ℚ)
          / (ws.length : ℚ) ≤ 1 :=
        div_le_one_of_le₀ hml (le_of_lt hpos)
      nlinarith [hdiv]

/-- C2: for every repository record with non-negative star count and every
technology string, and every text string, both `calculateRelevance` and
`calculateTextRelevance` return a score in the interval [0,1]. -/
theorem relevance_scores_bounded (repo : Repo) (text technology : String)
    (hstars : 0 ≤ repo.stargazers_count) :
    (0 ≤ calculateRelevance repo technology ∧ calculateRelevance repo technology ≤ 1) ∧
    (0 ≤ calculateTextRelevance text technology ∧
      calculateTextRelevance text technology ≤ 1) :=
  ⟨⟨calculateRelevance_nonneg repo technology hstars, calculateRelevance_le_one repo technology⟩,
   ⟨calculateTextRelevance_nonneg text technology, calculateTextRelevance_le_one text technology⟩⟩

/-- Witness for C2 at a concrete repository record with an extreme star
count and a concrete text/technology pair. -/
theorem relevance_scores_bounded_witness :
    (0 ≤ calculateRelevance
        ⟨"react", "facebook/react", "https://github.com/facebook/react", some "", 200000⟩
        "react" ∧
      calculateRelevance
        ⟨"react", "facebook/react", "https://github.com/facebook/react", some "", 200000⟩
        "react" ≤ 1) ∧
    (0 ≤ calculateTextRelevance "React Tutorial for Beginners" "react" ∧
      calculateTextRelevance "React Tutorial for Beginners" "react" ≤ 1) :=
  relevance_scores_bounded
    ⟨"react", "facebook/react", "https://github.com/facebook/react", some "", 200000⟩
    "React Tutorial for Beginners" "react" (by decide)

/-- C3: `calculateRelevance` computes exactly the spec formula (0.4 name
bonus, 0.3 description bonus, `min(stars/10000, 0.3)` star bonus, clamped
to [0,1]), and on `{name := "react", description := "", stars := 200000}`
with technology `"react"` it returns 0.7. -/
theorem calculateRelevance_matches_spec (repo : Repo) (technology : String)
    (htech : technology ≠ "") (hstars : 0 ≤ repo.stargazers_count) :
    calculateRelevance repo technology = specRepositoryRelevance repo technology ∧
    calculateRelevance ⟨"react", "facebook/react", "", some "", 200000⟩ "react" = 0.7 := by
  have hmin : (0 : ℚ) ≤ min (repo.stargazers_count / 10000) 0.3 :=
    le_min (by positivity) (by norm_num)
  constructor
  · cases hd : repo.description with
    | none =>
      simp only [calculateRelevance, specRepositoryRelevance, hd]
      split_ifs with h1 <;>
        first
          | contradiction
          | (rw [clamp01_of_nonneg (by linarith)]; congr 1 <;> ring)
            | (rw [clamp01_of_nonneg (by linarith)])
    | some d =>
      by_cases hde : d = ""
      · subst hde
        have hfalse : jsIncludes (lowerStr "") (lowerStr technology) = false := by
          have h0 : lowerStr "" = "" := rfl
          rw [h0]
          exact jsIncludes_empty_left (lowerStr_ne_empty htech)
        simp only [calculateRelevance, specRepositoryRelevance, hd, hfalse]
        split_ifs with h1 <;>
          first
            | contradiction
            | (rw [clamp01_of_nonneg (by linarith)]; congr 1 <;> ring)
            | (rw [clamp01_of_nonneg (by linarith)])
      · simp only [calculateRelevance, specRepositoryRelevance, hd, hde]
        split_ifs with h1 h2 <;>
          first
            | contradiction
            | (rw [clamp01_of_nonneg (by linarith)]; congr 1 <;> ring)
            | (rw [clamp01_of_nonneg (by linarith)])
  · have h1 : calculateRelevance ⟨"react", "facebook/react", "", some "", 200000⟩ "react"
        = min ((0 : ℚ) + 0.4 + min ((200000 : ℚ) / 10000) 0.3) 1 := rfl
    rw [h1, min_eq_right (show (0.3 : ℚ) ≤ (200000 : ℚ) / 10000 by norm_num),
      min_eq_left (show (0 : ℚ) + 0.4 + 0.3 ≤ 1 by norm_num)]
    norm_num

/-- Witness for C3 at the spec's own example record. -/
theorem calculateRelevance_matches_spec_witness :
    calculateRelevance ⟨"react", "facebook/react", "", some "", 200000⟩ "react" =
      specRepositoryRelevance ⟨"react", "facebook/react", "", some "", 200000⟩ "react" ∧
    calculateRelevance ⟨"react", "facebook/react", "", some "", 200000⟩ "react" = 0.7 :=
  calculateRelevance_matches_spec
    ⟨"react", "facebook/react", "", some "", 200000⟩ "react" (by decide) (by decide)

/-- C4: `calculateTextRelevance` returns 0.8 exactly when the lowercased
text contains the lowercased technology term, and otherwise returns
(matched word count / total word count) * 0.6 over the space-split words
of the term; on the spec's two examples it returns 0.8 and 0.3. -/
theorem calculateTextRelevance_spec (text technology : String) :
    (jsIncludes (lowerStr text) (lowerStr technology) = true →
      calculateTextRelevance text technology = 0.8) ∧
    (jsIncludes (lowerStr text) (lowerStr technology) = false →
      calculateTextRelevance text technology =
        (((jsSplit (lowerStr technology) ' ').countP
              (fun word => jsIncludes (lowerStr text) word) : ℚ)
            / ((jsSplit (lowerStr technology) ' ').length : ℚ)) * 0.6) ∧
    calculateTextRelevance "React Tutorial for Beginners" "react" = 0.8 ∧
    calculateTextRelevance "Machine basics" "machine learning" = 0.3 := by
  refine ⟨?_, ?_, ?_, ?_⟩
  · intro h
    simp only [calculateTextRelevance, h, if_true]
  · intro h
    simp only [calculateTextRelevance, h, Bool.false_eq_true, if_false]
    rw [List.countP_eq_length_filter]
  · have h : jsIncludes (lowerStr "React Tutorial for Beginners") (lowerStr "react") = true := by
      decide
    simp only [calculateTextRelevance, h, if_true]
  · have h : jsIncludes (lowerStr "Machine basics") (lowerStr "machine learning") = false := by
      decide
    have hs : jsSplit (lowerStr "machine learning") ' ' = ["machine", "learning"] := by decide
    have hf : (["machine", "learning"] : List String).filter
        (fun word => jsIncludes (lowerStr "Machine basics") word) = ["machine"] := by decide
    simp only [calculateTextRelevance, h, Bool.false_eq_true, if_false, hs, hf]
    norm_num

/-- Witness for C4: both branch hypotheses discharged at the spec's two
concrete examples. -/
theorem calculateTextRelevance_spec_witness :
    calculateTextRelevance "React Tutorial for Beginners" "react" = 0.8 ∧
    calculateTextRelevance "Machine basics" "machine learning" =
      (((jsSplit (lowerStr "machine learning") ' ').countP
            (fun word => jsIncludes (lowerStr "Machine basics") word) : ℚ)
          / ((jsSplit (lowerStr "machine learning") ' ').length : ℚ)) * 0.6 :=
  ⟨(calculateTextRelevance_spec "React Tutorial for Beginners" "react").1 (by decide),
   (calculateTextRelevance_spec "Machine basics" "machine learning").2.1 (by decide)⟩

/-- C10: when the description is `null`/`undefined` (`none`) or the empty
string, `calculateRelevance` awards no description bonus: the score is
the name bonus plus the star bonus, capped at 1, and the truthiness check
short-circuits before any string method touches the missing value. -/
theorem calculateRelevance_missing_description (repo : Repo) (technology : String)
    (hdesc : repo.description = none ∨ repo.description = some "") :
    calculateRelevance repo technology =
      min ((if jsIncludes (lowerStr repo.name) (lowerStr technology) then (0.4 : ℚ) else 0)
        + min (repo.stargazers_count / 10000) 0.3) 1 := by
  rcases hdesc with hd | hd <;>
    simp only [calculateRelevance, hd] <;> split_ifs <;> norm_num

/-- Witness for C10 at a concrete record with a missing description. -/
theorem calculateRelevance_missing_description_witness :
    calculateRelevance ⟨"react", "facebook/react", "", none, 200000⟩ "react" =
      min ((if jsIncludes (lowerStr "react") (lowerStr "react") then (0.4 : ℚ) else 0)
        + min ((200000 : ℚ) / 10000) 0.3) 1 :=
  calculateRelevance_missing_description
    ⟨"react", "facebook/react", "", none, 200000⟩ "react" (Or.inl rfl)

/-! ### RepositorySourceAdapter (`searchGitHub`) -/

/-- `ResearchService.searchGitHub` (research.ts lines 47-72).  The
network request and response parsing are the oracle argument: `.error`
is any failure of the request or of the handling of its response (the
whole body sits in one `try`), `.ok` carries the parsed items. -/
def searchGitHub (technology : String) (fetch : Except String (List Repo)) : List Resource :=
  match fetch with
  | .error _ => []
  | .ok repos =>
    repos.map fun repo =>
      { title := repo.full_name
        url := repo.html_url
        type := ResourceType.repository
        relevance := calculateRelevance repo technology }

/-! ### DocumentationSourceAdapter (`searchDocumentation`) -/

/-- An anchor element of a fetched documentation page, as cheerio exposes
it to the code: its visible text and its `href` attribute.  The CSS
selector `a[href*=tech]` is applied in `anchorResource`. -/
structure Anchor where
  text : String
  href : String
deriving DecidableEq, Repr

/-- The fixed, ordered list of documentation-site URLs
(research.ts lines 75-79); `encode` is JS `encodeURIComponent`. -/
def documentationSites (encode : String → String) (technology : String) : List String :=
  ["https://developer.mozilla.org/en-US/search?q=" ++ encode technology,
   "https://stackoverflow.com/search?q=" ++ encode technology,
   "https://docs.npmjs.com/search?q=" ++ encode technology]

/-- The per-anchor handling of research.ts lines 95-107: the selector
keeps anchors whose href contains the lowercased technology term; an
anchor with non-empty trimmed text longer than 10 characters and a
non-empty href is turned into a documentation `Resource`, resolving
relative hrefs against the page URL (`resolve` is the JS `URL`
constructor). -/
def anchorResource (technology pageUrl : String) (resolve : String → String → String)
    (a : Anchor) : Option Resource :=
  if jsIncludes a.href (lowerStr technology) then
    let title := trimStr a.text
    if title ≠ "" ∧ a.href ≠ "" ∧ 10 < title.length then
      some { title := title
             url := if jsStartsWith a.href "http" then a.href else resolve a.href pageUrl
             type := ResourceType.documentation
             relevance := calculateTextRelevance title technology }
    else none
  else none

/-- Descending order on relevance: the sort comparator
`(a, b) => b.relevance - a.relevance` of research.ts line 115. -/
def relDesc (a b : Resource) : Prop := b.relevance ≤ a.relevance

instance : DecidableRel relDesc :=
  fun a b => inferInstanceAs (Decidable (b.relevance ≤ a.relevance))

instance : IsTotal Resource relDesc :=
  ⟨fun a b => le_total b.relevance a.relevance⟩

instance : IsTrans Resource relDesc :=
  ⟨fun _ _ _ h1 h2 => le_trans h2 h1⟩

/-- `ResearchService.searchDocumentation` (research.ts lines 74-117).
`fetch url` is the oracle for the GET of one site: `.error` is a thrown
request (timeout, network), `.ok` the anchors of the parsed page.  Sites
are visited sequentially; a failing site is skipped; afterwards results
are filtered to relevance > 0.3, sorted descending and truncated to 10. -/
def searchDocumentation (technology : String) (encode : String → String)
    (fetch : String → Except String (List Anchor))
    (resolve : String → String → String) : List Resource :=
  let results :=
    (documentationSites encode technology).foldl
      (fun acc url =>
        match fetch url with
        | .error _ => acc
        | .ok anchors => acc ++ anchors.filterMap (anchorResource technology url resolve))
      []
  (((results.filter (fun r => decide ((0.3 : ℚ) < r.relevance))).insertionSort relDesc).take 10)

/-! ### CodeSampleAdapter (`findCodeExamples`, helpers) -/

/-- `ResearchService.detectLanguage` (research.ts lines 258-276). -/
def detectLanguage (filename : String) : String :=
  let extension := lowerStr ((jsSplit filename '.').getLastD "")
  match extension with
  | "js" => "javascript"
  | "ts" => "typescript"
  | "py" => "python"
  | "java" => "java"
  | "go" => "go"
  | "rs" => "rust"
  | "cpp" => "cpp"
  | "c" => "c"
  | "cs" => "csharp"
  | "php" => "php"
  | "rb" => "ruby"
  | _ => "text"

/-- Index of the first line whose lowercased content contains the
lowercased technology term: the scan-and-break loop of research.ts
lines 283-293. -/
def findMatchLine (techLower : String) : List String → Option Nat
  | [] => none
  | line :: rest =>
    if jsIncludes (lowerStr line) techLower then some 0
    else (findMatchLine techLower rest).map (· + 1)

/-- The body of `extractRelevantCode` after the split into lines: the
context window `[max(0, i-3), min(len, i+4))` around the first matching
line `i`, or the first 20 lines when no line matches
(research.ts lines 283-295). -/
def extractFromLines (lines : List String) (techLower : String) : String :=
  let relevantLines :=
    match findMatchLine techLower lines with
    | some i => (lines.drop (i - 3)).take (min lines.length (i + 4) - (i - 3))
    | none => []
  if 0 < relevantLines.length then jsJoin relevantLines "\n"
  else jsJoin (lines.take 20) "\n"

/-- `ResearchService.extractRelevantCode` (research.ts lines 278-296). -/
def extractRelevantCode (code technology : String) : String :=
  extractFromLines (jsSplit code '\n') (lowerStr technology)

/-- The fields of a code-search item consumed by the code (`item.url`,
`item.name`, `item.html_url`, `item.repository.full_name`). -/
structure CodeItem where
  url : String
  name : String
  html_url : String
  repositoryFullName : String
deriving DecidableEq, Repr

/-- `ResearchService.findCodeExamples` (research.ts lines 119-165).
`search` is the oracle for the code-search request, `fetchFile` the
oracle for the raw-content GET of one matched file (already
base64-decoded, as `Buffer.from(..., 'base64')` is a stdlib call).  The
inner `try`/`catch` skips a file whose fetch fails; the outer one turns
a failed search into an empty result. -/
def findCodeExamples (technology : String) (search : Except String (List CodeItem))
    (fetchFile : CodeItem → Except String String) : List CodeExample :=
  match search with
  | .error _ => []
  | .ok items =>
    items.foldl
      (fun examples item =>
        match fetchFile item with
        | .error _ => examples
        | .ok content =>
          examples ++
            [{ language := detectLanguage item.name
               code := extractRelevantCode content technology
               description := "Example from " ++ item.repositoryFullName
               source := item.html_url }])
      []

/-! ### Synthesizer (`generateSummary`, `generateRecommendations`) -/

/-- `ResearchService.generateSummary` (research.ts lines 167-187): the
template literal, with `${...}` splices spelled out, then `trim()`. -/
def generateSummary (query : ResearchQuery)
    (githubResults documentationResults : List Resource) : String :=
  let topRepos := jsJoin ((githubResults.take 3).map Resource.title) ", "
  let topDocs := jsJoin ((documentationResults.take 3).map Resource.title) ", "
  trimStr
    ("\nResearch Summary for " ++ query.technology ++ ":\n\nBased on analysis of "
      ++ toString githubResults.length ++ " repositories and "
      ++ toString documentationResults.length ++ " documentation sources:\n\nPopular repositories: "
      ++ topRepos ++ "\nKey documentation: " ++ topDocs ++ "\n\n"
      ++ (if query.purpose ≠ "" then
            "Purpose alignment: This technology appears well-suited for " ++ query.purpose
          else "")
      ++ "\n\nThe ecosystem shows active development with strong community support and comprehensive documentation.\n    ")

/-- `ResearchService.generateRecommendations` (research.ts lines
189-222), with the imperative `push` calls rendered as appends to an
accumulator, in the order the rules fire. -/
def generateRecommendations (query : ResearchQuery) (githubResults : List Resource) :
    List String :=
  let recommendations : List String := []
  let highStarRepos := githubResults.filter (fun r => decide ((0.8 : ℚ) < r.relevance))
  let recommendations :=
    match highStarRepos with
    | [] => recommendations
    | r :: _ =>
      recommendations ++ ["Consider using " ++ r.title ++ " as it has high community adoption"]
  let recommendations :=
    if jsIncludes (lowerStr query.purpose) "web" then
      recommendations ++ ["Focus on frameworks with strong web support and active maintenance"]
    else recommendations
  let recommendations :=
    if jsIncludes (lowerStr query.purpose) "api" then
      recommendations ++ ["Prioritize libraries with good REST/GraphQL integration"]
    else recommendations
  let recommendations :=
    match query.constraints with
    | none => recommendations
    | some cs =>
      cs.foldl
        (fun acc constraint =>
          let acc :=
            if jsIncludes (lowerStr constraint) "performance" then
              acc ++ ["Evaluate performance benchmarks before implementation"]
            else acc
          if jsIncludes (lowerStr constraint) "security" then
            acc ++ ["Review security practices and vulnerability reports"]
          else acc)
        recommendations
  recommendations ++
    ["Set up automated testing and CI/CD pipeline",
     "Plan for regular dependency updates and security patches"]

/-! ### ResearchOrchestrator (`researchTopic`) -/

/-- The external world one `researchTopic` call runs against: the oracle
for each network interaction and the JS stdlib functions the code calls.
`orchestrationFault` models an exception raised inside the `try` block
but outside the three adapters (whose own failures never escape); the
surrounding `catch` converts any such exception into the single generic
error. -/
structure ResearchEnv where
  githubFetch : Except String (List Repo)
  encode : String → String
  docFetch : String → Except String (List Anchor)
  resolve : String → String → String
  codeSearch : Except String (List CodeItem)
  fileFetch : CodeItem → Except String String
  orchestrationFault : Option String

/-- `ResearchService.researchTopic` (research.ts lines 18-45): fan out to
the three adapters, synthesize summary and recommendations, and assemble
the result; any error escaping the adapters is caught and rethrown as
the generic `Research operation failed`. -/
def researchTopic (query : ResearchQuery) (env : ResearchEnv) :
    Except String ResearchResult :=
  match env.orchestrationFault with
  | some _ => Except.error "Research operation failed"
  | none =>
    let githubResults := searchGitHub query.technology env.githubFetch
    let documentationResults :=
      searchDocumentation query.technology env.encode env.docFetch env.resolve
    let codeExamples := findCodeExamples query.technology env.codeSearch env.fileFetch
    Except.ok
      { summary := generateSummary query githubResults documentationResults
        recommendations := generateRecommendations query githubResults
        codeExamples := codeExamples
        resources := githubResults ++ documentationResults }

/-! ### C5: the documentation adapter's filter / sort / cap contract -/

/-- C5: whatever the documentation sites return, every resource returned
by `searchDocumentation` has relevance strictly above 0.3, the list is
sorted in descending order of relevance, and it has at most 10 entries. -/
theorem searchDocumentation_filter_sort_cap (technology : String)
    (encode : String → String) (fetch : String → Except String (List Anchor))
    (resolve : String → String → String) :
    (searchDocumentation technology encode fetch resolve).all
      (fun r => decide ((0.3 : ℚ) < r.relevance)) = true ∧
    List.Sorted relDesc (searchDocumentation technology encode fetch resolve) ∧
    (searchDocumentation technology encode fetch resolve).length ≤ 10 := by
  refine ⟨?_, ?_, ?_⟩
  · rw [List.all_eq_true]
    intro r hr
    simp only [searchDocumentation] at hr
    have h1 := List.take_subset _ _ hr
    rw [List.mem_insertionSort] at h1
    exact (List.mem_filter.mp h1).2
  · simp only [searchDocumentation]
    exact (List.sorted_insertionSort relDesc _).sublist (List.take_sublist _ _)
  · simp only [searchDocumentation]
    rw [List.length_take]
    omega

/-! ### C6: the context window of `extractRelevantCode` -/

theorem findMatchLine_eq_none_iff {techLower : String} {lines : List String} :
    findMatchLine techLower lines = none ↔
      ∀ line ∈ lines, jsIncludes (lowerStr line) techLower = false := by
  induction lines with
  | nil => simp [findMatchLine]
  | cons line rest ih =>
    simp only [findMatchLine, List.mem_cons]
    by_cases h : jsIncludes (lowerStr line) techLower = true
    · simp [h]
    · rw [if_neg h]
      simp only [Option.map_eq_none', ih]
      constructor
      · intro hall l hl
        rcases hl with rfl | hl
        · exact Bool.eq_false_iff.mpr h
        · exact hall l hl
      · intro hall l hl
        exact hall l (Or.inr hl)

theorem findMatchLine_lt_length {techLower : String} :
    ∀ {lines : List String} {i : Nat},
      findMatchLine techLower lines = some i → i < lines.length := by
  intro lines
  induction lines with
  | nil => intro i h; simp [findMatchLine] at h
  | cons line rest ih =>
    intro i h
    simp only [findMatchLine] at h
    split_ifs at h with hc
    · cases h
      simp
    · rcases Option.map_eq_some'.mp h with ⟨j, hj, rfl⟩
      have := ih hj
      simp only [List.length_cons]
      omega

theorem findMatchLine_take {techLower : String} :
    ∀ {lines : List String} {i n : Nat},
      findMatchLine techLower lines = some i → i < n →
      findMatchLine techLower (lines.take n) = some i := by
  intro lines
  induction lines with
  | nil => intro i n h _; simp [findMatchLine] at h
  | cons line rest ih =>
    intro i n h hn
    cases n with
    | zero => omega
    | succ m =>
      simp only [List.take_succ_cons]
      simp only [findMatchLine] at h ⊢
      split_ifs at h ⊢ with hc
      · exact h
      · rcases Option.map_eq_some'.mp h with ⟨j, hj, rfl⟩
        rw [ih hj (by omega)]
        rfl

theorem extractFromLines_none {lines : List String} {techLower : String}
    (h : findMatchLine techLower lines = none) :
    extractFromLines lines techLower = jsJoin (lines.take 20) "\n" := by
  simp [extractFromLines, h]

theorem extractFromLines_some {lines : List String} {techLower : String} {i : Nat}
    (h : findMatchLine techLower lines = some i) :
    extractFromLines lines techLower
      = jsJoin ((lines.drop (i - 3)).take (min lines.length (i + 4) - (i - 3))) "\n" := by
  have hlt := findMatchLine_lt_length h
  simp only [extractFromLines, h]
  rw [if_pos]
  rw [List.length_take, List.length_drop]
  omega

/-- C6: when no line of the file contains the technology term, the
extracted code is exactly the first 20 lines rejoined; when the first
matching line has index `i`, it is exactly the window
`[max(0, i-3), min(lineCount, i+4))` rejoined, and lines beyond the
window are never consulted (truncating the file after line `i+3` leaves
the result unchanged). -/
theorem extractRelevantCode_window (code technology : String) :
    ((∀ line ∈ jsSplit code '\n',
        jsIncludes (lowerStr line) (lowerStr technology) = false) →
      extractRelevantCode code technology = jsJoin ((jsSplit code '\n').take 20) "\n") ∧
    (∀ i, findMatchLine (lowerStr technology) (jsSplit code '\n') = some i →
      extractRelevantCode code technology
        = jsJoin (((jsSplit code '\n').drop (i - 3)).take
            (min (jsSplit code '\n').length (i + 4) - (i - 3))) "\n" ∧
      extractFromLines ((jsSplit code '\n').take (i + 4)) (lowerStr technology)
        = extractFromLines (jsSplit code '\n') (lowerStr technology)) := by
  constructor
  · intro h
    exact extractFromLines_none (findMatchLine_eq_none_iff.mpr h)
  · intro i hi
    refine ⟨extractFromLines_some hi, ?_⟩
    rcases le_or_lt (jsSplit code '\n').length (i + 4) with hle | hlt
    · rw [List.take_of_length_le hle]
    · have h2 := findMatchLine_take hi (show i < i + 4 by omega)
      rw [extractFromLines_some h2, extractFromLines_some hi]
      congr 1
      rw [List.length_take]
      have hm : min (min (i + 4) (jsSplit code '\n').length) (i + 4)
          = min (jsSplit code '\n').length (i + 4) := by omega
      rw [hm, List.drop_take, List.take_take]
      congr 1
      omega

/-- A concrete file for the C6 witness whose fourth line (index 3) is
the first one containing the technology term. -/
def sampleCode : String :=
  "line one\nline two\nline three\nREACT here\nline five\nline six\nline seven\nline eight\nline nine"

/-- Witness for C6: the no-match fallback on a two-line file and the
window equations at the concrete first-match index 3. -/
theorem extractRelevantCode_window_witness :
    extractRelevantCode "alpha\nbeta" "react"
      = jsJoin ((jsSplit "alpha\nbeta" '\n').take 20) "\n" ∧
    (extractRelevantCode sampleCode "react"
        = jsJoin (((jsSplit sampleCode '\n').drop (3 - 3)).take
            (min (jsSplit sampleCode '\n').length (3 + 4) - (3 - 3))) "\n" ∧
      extractFromLines ((jsSplit sampleCode '\n').take (3 + 4)) (lowerStr "react")
        = extractFromLines (jsSplit sampleCode '\n') (lowerStr "react")) :=
  ⟨(extractRelevantCode_window "alpha\nbeta" "react").1 (by decide),
   (extractRelevantCode_window sampleCode "react").2 3 (by decide)⟩

/-! ### C7: per-adapter and per-file failure isolation -/

theorem findCodeExamples_loop (technology : String)
    (fetchFile : CodeItem → Except String String) :
    ∀ (items : List CodeItem) (acc : List CodeExample),
      items.foldl
        (fun examples item =>
          match fetchFile item with
          | .error _ => examples
          | .ok content =>
            examples ++
              [{ language := detectLanguage item.name
                 code := extractRelevantCode content technology
                 description := "Example from " ++ item.repositoryFullName
                 source := item.html_url }])
        acc
      = acc ++ items.filterMap (fun item =>
          (fetchFile item).toOption.map (fun content =>
            { language := detectLanguage item.name
              code := extractRelevantCode content technology
              description := "Example from " ++ item.repositoryFullName
              source := item.html_url })) := by
  intro items
  induction items with
  | nil => intro acc; simp
  | cons item rest ih =>
    intro acc
    simp only [List.foldl_cons, List.filterMap_cons]
    cases hf : fetchFile item with
    | error e => simp only [hf, Except.toOption, Option.map_none', ih]
    | ok content =>
      simp only [hf, Except.toOption, Option.map_some', ih]
      rw [List.append_assoc]
      rfl

/-- C7: a failed (or unparseable) repository search yields `[]` from
`searchGitHub`; a failed code search yields `[]` from
`findCodeExamples`; and on a successful code search the examples are
exactly the per-item file fetches that succeeded, each failed file fetch
being omitted and nothing else. -/
theorem adapters_error_isolation (technology e : String) (items : List CodeItem)
    (fetchFile : CodeItem → Except String String) :
    searchGitHub technology (Except.error e) = [] ∧
    findCodeExamples technology (Except.error e) fetchFile = [] ∧
    findCodeExamples technology (Except.ok items) fetchFile =
      items.filterMap (fun item =>
        (fetchFile item).toOption.map (fun content =>
          { language := detectLanguage item.name
            code := extractRelevantCode content technology
            description := "Example from " ++ item.repositoryFullName
            source := item.html_url })) := by
  refine ⟨rfl, rfl, ?_⟩
  simp only [findCodeExamples]
  rw [findCodeExamples_loop]
  rfl

/-! ### C9: rule-firing order of `generateRecommendations` -/

theorem find?_eq_filter_head? (p : α → Bool) (l : List α) :
    l.find? p = (l.filter p).head? := by
  induction l with
  | nil => rfl
  | cons a t ih =>
    cases h : p a with
    | true => rw [List.find?_cons_of_pos _ h, List.filter_cons_of_pos h, List.head?_cons]
    | false => rw [List.find?_cons_of_neg, List.filter_cons_of_neg, ih] <;> simp [h]

theorem constraints_foldl (cs : List String) :
    ∀ acc : List String,
      cs.foldl
        (fun acc constraint =>
          if jsIncludes (lowerStr constraint) "security" = true then
            (if jsIncludes (lowerStr constraint) "performance" = true then
              acc ++ ["Evaluate performance benchmarks before implementation"]
            else acc) ++ ["Review security practices and vulnerability reports"]
          else
            if jsIncludes (lowerStr constraint) "performance" = true then
              acc ++ ["Evaluate performance benchmarks before implementation"]
            else acc)
        acc
      = acc ++ (cs.map (fun constraint =>
          (if jsIncludes (lowerStr constraint) "performance" then
            ["Evaluate performance benchmarks before implementation"] else []) ++
          (if jsIncludes (lowerStr constraint) "security" then
            ["Review security practices and vulnerability reports"] else []))).join := by
  induction cs with
  | nil => intro acc; simp
  | cons c t ih =>
    intro acc
    simp only [List.foldl_cons, List.map_cons, List.join_cons]
    rw [ih]
    split_ifs <;> simp [List.append_assoc]

/-- C9: the recommendation list is exactly the concatenation, in
rule-firing order, of: the high-adoption recommendation for the first
repository resource with relevance > 0.8 (if any), the web and api
purpose recommendations, the per-constraint performance and security
recommendations in constraint order, and the two fixed closing
recommendations; hence it always has at least 2 entries. -/
theorem generateRecommendations_rule_order (query : ResearchQuery)
    (githubResults : List Resource) :
    generateRecommendations query githubResults =
      (match githubResults.find? (fun r => decide ((0.8 : ℚ) < r.relevance)) with
       | some r => ["Consider using " ++ r.title ++ " as it has high community adoption"]
       | none => []) ++
      (if jsIncludes (lowerStr query.purpose) "web" then
        ["Focus on frameworks with strong web support and active maintenance"] else []) ++
      (if jsIncludes (lowerStr query.purpose) "api" then
        ["Prioritize libraries with good REST/GraphQL integration"] else []) ++
      (match query.constraints with
       | none => []
       | some cs =>
         (cs.map (fun constraint =>
           (if jsIncludes (lowerStr constraint) "performance" then
             ["Evaluate performance benchmarks before implementation"] else []) ++
           (if jsIncludes (lowerStr constraint) "security" then
             ["Review security practices and vulnerability reports"] else []))).join) ++
      ["Set up automated testing and CI/CD pipeline",
       "Plan for regular dependency updates and security patches"] ∧
    2 ≤ (generateRecommendations query githubResults).length := by
  have hfind := find?_eq_filter_head? (fun r => decide ((0.8 : ℚ) < r.relevance)) githubResults
  have heq : generateRecommendations query githubResults =
      (match githubResults.find? (fun r => decide ((0.8 : ℚ) < r.relevance)) with
       | some r => ["Consider using " ++ r.title ++ " as it has high community adoption"]
       | none => []) ++
      (if jsIncludes (lowerStr query.purpose) "web" then
        ["Focus on frameworks with strong web support and active maintenance"] else []) ++
      (if jsIncludes (lowerStr query.purpose) "api" then
        ["Prioritize libraries with good REST/GraphQL integration"] else []) ++
      (match query.constraints with
       | none => []
       | some cs =>
         (cs.map (fun constraint =>
           (if jsIncludes (lowerStr constraint) "performance" then
             ["Evaluate performance benchmarks before implementation"] else []) ++
           (if jsIncludes (lowerStr constraint) "security" then
             ["Review security practices and vulnerability reports"] else []))).join) ++
      ["Set up automated testing and CI/CD pipeline",
       "Plan for regular dependency updates and security patches"] := by
    cases hc : query.constraints with
    | none =>
      simp only [generateRecommendations, hc]
      cases hf : githubResults.filter (fun r => decide ((0.8 : ℚ) < r.relevance)) with
      | nil =>
        rw [hf] at hfind
        simp only [List.head?_nil] at hfind
        simp only [hfind]
        split_ifs <;> simp [List.append_assoc]
      | cons r rest =>
        rw [hf] at hfind
        simp only [List.head?_cons] at hfind
        simp only [hfind]
        split_ifs <;> simp [List.append_assoc]
    | some cs =>
      simp only [generateRecommendations, hc]
      rw [constraints_foldl]
      cases hf : githubResults.filter (fun r => decide ((0.8 : ℚ) < r.relevance)) with
      | nil =>
        rw [hf] at hfind
        simp only [List.head?_nil] at hfind
        simp only [hfind]
        split_ifs <;> simp [List.append_assoc]
      | cons r rest =>
        rw [hf] at hfind
        simp only [List.head?_cons] at hfind
        simp only [hfind]
        split_ifs <;> simp [List.append_assoc]
  refine ⟨heq, ?_⟩
  rw [heq]
  simp only [List.append_assoc, List.length_append, List.length_cons, List.length_nil]
  omega

/-! ### C1: assembly of the final ResearchResult -/

/-- C1: whenever `researchTopic` returns successfully, the result's
`resources` field is the repository-adapter results concatenated, in that
order, with the documentation-adapter results — no merging and no
deduplication, so a resource-counting predicate (e.g. matching one URL)
counts contributions from both adapters additively — and `codeExamples`
is exactly the code-sample adapter's output. -/
theorem researchTopic_assembles (query : ResearchQuery) (env : ResearchEnv)
    (r : ResearchResult) (hok : researchTopic query env = Except.ok r) :
    r.resources =
      searchGitHub query.technology env.githubFetch ++
        searchDocumentation query.technology env.encode env.docFetch env.resolve ∧
    r.codeExamples = findCodeExamples query.technology env.codeSearch env.fileFetch ∧
    ∀ p : Resource → Bool,
      r.resources.countP p =
        (searchGitHub query.technology env.githubFetch).countP p +
          (searchDocumentation query.technology env.encode env.docFetch env.resolve).countP p := by
  cases hfault : env.orchestrationFault with
  | some f =>
    simp only [researchTopic, hfault] at hok
    exact absurd hok (by simp)
  | none =>
    simp only [researchTopic, hfault, Except.ok.injEq] at hok
    subst hok
    exact ⟨rfl, rfl, fun p => List.countP_append p _ _⟩

/-- Fixture query for the orchestrator witnesses. -/
def qC1 : ResearchQuery := ⟨"react", "building a web api", some ["performance"]⟩

/-- Fixture repository record for the orchestrator witnesses. -/
def repoC1 : Repo :=
  ⟨"react", "facebook/react", "https://github.com/facebook/react",
    some "The library for web and native user interfaces", 200000⟩

/-- Fixture documentation anchor for the orchestrator witnesses. -/
def anchorC1 : Anchor :=
  ⟨"  React documentation and tutorials  ", "https://developer.mozilla.org/react"⟩

/-- Fixture environment in which every adapter input is concrete and no
orchestration fault occurs. -/
def envC1 : ResearchEnv :=
  { githubFetch := Except.ok [repoC1]
    encode := fun s => s
    docFetch := fun _ => Except.ok [anchorC1]
    resolve := fun href _ => href
    codeSearch := Except.ok []
    fileFetch := fun _ => Except.error "not found"
    orchestrationFault := none }

/-- The result `researchTopic` assembles in `envC1`. -/
def resC1 : ResearchResult :=
  { summary := generateSummary qC1 (searchGitHub qC1.technology envC1.githubFetch)
      (searchDocumentation qC1.technology envC1.encode envC1.docFetch envC1.resolve)
    recommendations := generateRecommendations qC1 (searchGitHub qC1.technology envC1.githubFetch)
    codeExamples := findCodeExamples qC1.technology envC1.codeSearch envC1.fileFetch
    resources := searchGitHub qC1.technology envC1.githubFetch ++
      searchDocumentation qC1.technology envC1.encode envC1.docFetch envC1.resolve }

/-- Witness for C1 at the concrete environment `envC1`. -/
theorem researchTopic_assembles_witness :
    resC1.resources =
      searchGitHub qC1.technology envC1.githubFetch ++
        searchDocumentation qC1.technology envC1.encode envC1.docFetch envC1.resolve ∧
    resC1.codeExamples = findCodeExamples qC1.technology envC1.codeSearch envC1.fileFetch ∧
    ∀ p : Resource → Bool,
      resC1.resources.countP p =
        (searchGitHub qC1.technology envC1.githubFetch).countP p +
          (searchDocumentation qC1.technology envC1.encode envC1.docFetch envC1.resolve).countP p :=
  researchTopic_assembles qC1 envC1 resC1 rfl

/-! ### C8: graceful degradation and the single generic error -/

theorem searchDocumentation_all_fail (technology : String) (encode : String → String)
    (fetch : String → Except String (List Anchor)) (resolve : String → String → String)
    (h : ∀ url ∈ documentationSites encode technology, ∃ e, fetch url = Except.error e) :
    searchDocumentation technology encode fetch resolve = [] := by
  simp only [searchDocumentation]
  have hfold : ∀ (sites : List String),
      (∀ url ∈ sites, ∃ e, fetch url = Except.error e) →
      ∀ (acc : List Resource),
      sites.foldl
        (fun acc url =>
          match fetch url with
          | .error _ => acc
          | .ok anchors => acc ++ anchors.filterMap (anchorResource technology url resolve))
        acc = acc := by
    intro sites
    induction sites with
    | nil => intro _ acc; rfl
    | cons u rest ih =>
      intro hh acc
      rcases hh u (List.mem_cons_self u rest) with ⟨e, he⟩
      simp only [List.foldl_cons, he]
      exact ih (fun url hu => hh url (List.mem_cons_of_mem _ hu)) acc
  rw [hfold _ h []]
  rfl

theorem searchGitHub_types (technology : String) (fetch : Except String (List Repo)) :
    ∀ res ∈ searchGitHub technology fetch, res.type = ResourceType.repository := by
  intro res h
  cases fetch with
  | error e => simp [searchGitHub] at h
  | ok repos =>
    simp only [searchGitHub] at h
    rcases List.mem_map.mp h with ⟨repo, _, rfl⟩
    rfl

/-- C8: if every documentation-site fetch fails, `researchTopic` still
returns successfully and its resources are exactly the repository-sourced
entries; and whenever `researchTopic` fails, the error reaching the
caller is the single generic `Research operation failed`. -/
theorem researchTopic_error_handling (query : ResearchQuery) (env : ResearchEnv) :
    ((∀ url ∈ documentationSites env.encode query.technology,
        ∃ e, env.docFetch url = Except.error e) →
      env.orchestrationFault = none →
      ∃ r, researchTopic query env = Except.ok r ∧
        r.resources = searchGitHub query.technology env.githubFetch ∧
        ∀ res ∈ r.resources, res.type = ResourceType.repository) ∧
    ∀ e, researchTopic query env = Except.error e → e = "Research operation failed" := by
  constructor
  · intro hdocs hfault
    have hdoc0 :=
      searchDocumentation_all_fail query.technology env.encode env.docFetch env.resolve hdocs
    refine ⟨⟨generateSummary query (searchGitHub query.technology env.githubFetch)
          (searchDocumentation query.technology env.encode env.docFetch env.resolve),
        generateRecommendations query (searchGitHub query.technology env.githubFetch),
        findCodeExamples query.technology env.codeSearch env.fileFetch,
        searchGitHub query.technology env.githubFetch ++
          searchDocumentation query.technology env.encode env.docFetch env.resolve⟩,
      ?_, ?_, ?_⟩
    · simp only [researchTopic, hfault]
    · show searchGitHub query.technology env.githubFetch ++
          searchDocumentation query.technology env.encode env.docFetch env.resolve =
        searchGitHub query.technology env.githubFetch
      rw [hdoc0, List.append_nil]
    · intro res hres
      have hres2 : res ∈ searchGitHub query.technology env.githubFetch ++
          searchDocumentation query.technology env.encode env.docFetch env.resolve := hres
      rw [hdoc0, List.append_nil] at hres2
      exact searchGitHub_types _ _ res hres2
  · intro e he
    cases hfault : env.orchestrationFault with
    | some f =>
      simp only [researchTopic, hfault, Except.error.injEq] at he
      exact he.symm
    | none =>
      simp only [researchTopic, hfault] at he
      exact absurd he (by simp)

/-- Fixture environment in which every documentation site fetch fails
and the other adapters fail as well. -/
def envC8 : ResearchEnv :=
  { githubFetch := Except.ok [repoC1]
    encode := fun s => s
    docFetch := fun _ => Except.error "timeout"
    resolve := fun href _ => href
    codeSearch := Except.error "search failed"
    fileFetch := fun _ => Except.error "x"
    orchestrationFault := none }

/-- Fixture environment with an orchestration fault. -/
def envC8f : ResearchEnv :=
  { githubFetch := Except.ok [repoC1]
    encode := fun s => s
    docFetch := fun _ => Except.error "timeout"
    resolve := fun href _ => href
    codeSearch := Except.error "search failed"
    fileFetch := fun _ => Except.error "x"
    orchestrationFault := some "boom" }

/-- Witness for C8: graceful degradation in `envC8` (every site failing)
and the generic error in the faulted environment `envC8f`. -/
theorem researchTopic_error_handling_witness :
    (∃ r, researchTopic qC1 envC8 = Except.ok r ∧
      r.resources = searchGitHub qC1.technology envC8.githubFetch ∧
      ∀ res ∈ r.resources, res.type = ResourceType.repository) ∧
    "Research operation failed" = "Research operation failed" :=
  ⟨(researchTopic_error_handling qC1 envC8).1 (fun url _ => ⟨"timeout", rfl⟩) rfl,
   (researchTopic_error_handling qC1 envC8f).2 "Research operation failed" rfl⟩

end Coworker
